import Mathlib

/-
Verification of the webhook dispatch engine in
src/backend/classes/webhook-manager.js (class WebhookManager).

The JavaScript is shallowly embedded: JSON-like runtime values become the
inductive type JsonVal, the template compiler and its helpers become pure
Lean functions mirroring the JS control flow, fallible JS code (thrown
exceptions) becomes Except-valued code, and the external collaborators
(the HTTP client, the relational store) become explicit oracle parameters.

Embedding conventions, noted where they matter:
- JS `undefined` is represented as `Option JsonVal` with `none` = undefined;
  `null` is the JsonVal.null value (distinct, as in JS).
- Property access models own properties plus the `length` property of
  strings and arrays and canonical numeric indices; other prototype-chain
  properties are not modelled.
- Numeric JSON literals are modelled as integers (the claims under study
  never depend on fractional values).
- The kernel of axios behaviour that the code relies on is modelled:
  with the default config used at every call site, axios resolves exactly
  when the response status is in [200, 300) and rejects otherwise
  (rejections carry the response for non-2xx statuses, which is what the
  catch block at webhook-manager.js:132 inspects via error.response).
-/

namespace Jellystat

/-- JSON-like runtime values (the payload/headers/event-data trees). -/
inductive JsonVal where
  | null
  | bool (b : Bool)
  | num (n : Int)
  | str (s : String)
  | arr (items : List JsonVal)
  | obj (fields : List (String × JsonVal))

/-- Concatenation with "," separators (Array.prototype.join). -/
def joinStrings : List String → String
  | [] => ""
  | [s] => s
  | s :: t :: rest => s ++ "," ++ joinStrings (t :: rest)

/-- JS String() coercion, fuelled: structural recursion on the fuel keeps
concrete evaluations kernel-reducible; the wrapper below supplies fuel
bounding the value's depth. Arrays stringify by joining element strings
with commas (null elements join as the empty string); plain objects
stringify as "[object Object]". -/
def jsToStringFuel : Nat → JsonVal → String
  | _, .null => "null"
  | _, .bool true => "true"
  | _, .bool false => "false"
  | _, .num n => toString n
  | _, .str s => s
  | _, .obj _ => "[object Object]"
  | 0, .arr _ => ""
  | fuel + 1, .arr items =>
      joinStrings (items.map (fun v =>
        match v with
        | .null => ""
        | v => jsToStringFuel fuel v))

mutual
/-- Nesting depth of a value, used only to choose sufficient fuel. -/
def jsonDepth : JsonVal → Nat
  | .null => 0
  | .bool _ => 0
  | .num _ => 0
  | .str _ => 0
  | .obj fields => fieldsDepth fields + 1
  | .arr items => itemsDepth items + 1

def itemsDepth : List JsonVal → Nat
  | [] => 0
  | v :: rest => max (jsonDepth v) (itemsDepth rest)

def fieldsDepth : List (String × JsonVal) → Nat
  | [] => 0
  | (_, v) :: rest => max (jsonDepth v) (fieldsDepth rest)
end

/-- JS String() coercion, as used when a resolved template value is
spliced into the surrounding string by String.prototype.replace. -/
def jsToString (v : JsonVal) : String := jsToStringFuel (jsonDepth v + 1) v

/-- A string is a canonical array index ("0", "17", ...) iff it round-trips
through Nat parsing. "00" or "+1" are not canonical indices. -/
def canonicalIndex (s : String) : Option Nat :=
  match s.toNat? with
  | some n => if toString n = s then some n else none
  | none => none

/-- JS property read `value[key]`, returning `none` for undefined.
Reading a property of null throws a TypeError (modelled as Except.error);
numbers and booleans have no modelled own properties, so reads on them
yield undefined. -/
def getProp : JsonVal → String → Except String (Option JsonVal)
  | .null, _ => .error "TypeError: Cannot read properties of null"
  | .obj fields, k => .ok (fields.lookup k)
  | .arr items, k =>
      if k = "length" then .ok (some (.num (Int.ofNat items.length)))
      else .ok (match canonicalIndex k with
                | some n => items.get? n
                | none => none)
  | .str s, k =>
      if k = "length" then .ok (some (.num (Int.ofNat s.length)))
      else .ok (match canonicalIndex k with
                | some n => (s.toList.get? n).map (fun c => .str (String.mk [c]))
                | none => none)
  | .num _, _ => .ok none
  | .bool _, _ => .ok none

/-- The path walk of compileTemplate's replace callback
(webhook-manager.js:150-155): starting from `data`, follow each key; if the
current value is undefined before a step, stop unresolved (`none`); the
final value may itself be undefined (also `none`). Accessing a property of
null throws. -/
def walkPath : List String → Option JsonVal → Except String (Option JsonVal)
  | [], v => .ok v
  | _ :: _, none => .ok none
  | k :: rest, some x => do walkPath rest (← getProp x k)

/-- JS whitespace as trimmed by String.prototype.trim (the characters that
can realistically occur here). -/
def isJsWs (c : Char) : Bool :=
  c = ' ' || c = '\t' || c = '\n' || c = '\r'

/-- path.trim(): strip leading and trailing whitespace. -/
def trimChars (cs : List Char) : List Char :=
  ((cs.dropWhile isJsWs).reverse.dropWhile isJsWs).reverse

/-- path.split("."): JS split on a single-character separator — the empty
string yields [""], separators at the edges and doubled separators yield
empty segments. -/
def splitDot : List Char → List String
  | [] => [""]
  | c :: rest =>
    let r := splitDot rest
    if c = '.' then "" :: r
    else
      match r with
      | s :: t => (String.mk [c] ++ s) :: t
      | [] => [String.mk [c]]

/-- Resolve one `\x7b\x7bpath\x7d\x7d` placeholder body against `data`
(webhook-manager.js:149-157): trim, split on ".", walk; `none` means the
placeholder is left as the original matched text. -/
def resolvePlaceholder (data : JsonVal) (rawPath : String) : Except String (Option String) := do
  let keys := splitDot (trimChars rawPath.toList)
  match ← walkPath keys (some data) with
  | some v => pure (some (jsToString v))
  | none => pure none

/-- One pass of String.prototype.replace with the global regex
/\x7b\x7b([^\x7d]+)\x7d\x7d/g (webhook-manager.js:148): at each position,
a match needs "\x7b\x7b", then one or more non-"\x7d" characters, then
"\x7d\x7d"; on a match the scan resumes after it, otherwise it advances one
character. The fuel argument bounds recursion; one unit is spent per
position, so fuel = length + 1 never runs out. -/
def scanTemplate (data : JsonVal) : Nat → List Char → Except String (List Char)
  | 0, cs => .ok cs
  | fuel + 1, cs =>
    match cs with
    | [] => .ok []
    | '{' :: '{' :: rest =>
        let run := rest.takeWhile (fun c => c ≠ '}')
        let after := rest.drop run.length
        (match run, after with
         | _ :: _, '}' :: '}' :: tail => do
             let repl ← resolvePlaceholder data (String.mk run)
             let tail2 ← scanTemplate data fuel tail
             match repl with
             | some s => pure (s.toList ++ tail2)
             | none => pure ('{' :: '{' :: (run ++ '}' :: '}' :: tail2))
         | _, _ => do
             let rest2 ← scanTemplate data fuel ('{' :: rest)
             pure ('{' :: rest2))
    | c :: cs2 => do
        let rest2 ← scanTemplate data fuel cs2
        pure (c :: rest2)

/-- template.replace(...) over a whole string template. -/
def replaceTemplate (data : JsonVal) (s : String) : Except String String := do
  pure (String.mk (← scanTemplate data (s.toList.length + 1) s.toList))

mutual
/-- compileTemplate(template, data) (webhook-manager.js:140-162).
JS dispatches on typeof: null and arrays both satisfy
typeof template === "object", so null reaches Object.keys(null) and throws,
and an array is rebuilt by reduce into a PLAIN OBJECT keyed by its index
strings. Strings go through placeholder replacement; any other scalar is
returned unchanged. -/
def compileTemplate (template data : JsonVal) : Except String JsonVal :=
  match template with
  | .obj fields =>
      (match compileFields fields data with
       | .error e => .error e
       | .ok fs2 => .ok (.obj fs2))
  | .arr items =>
      (match compileItems items data with
       | .error e => .error e
       | .ok cs => .ok (.obj (cs.enum.map (fun p => (toString p.1, p.2)))))
  | .null => .error "TypeError: Cannot convert undefined or null to object"
  | .str s =>
      (match replaceTemplate data s with
       | .error e => .error e
       | .ok s2 => .ok (.str s2))
  | .num n => .ok (.num n)
  | .bool b => .ok (.bool b)

/-- The reduce over Object.keys for a plain-object template: each value is
compiled in key order; the first thrown error propagates. -/
def compileFields (fields : List (String × JsonVal)) (data : JsonVal) :
    Except String (List (String × JsonVal)) :=
  match fields with
  | [] => .ok []
  | (k, v) :: rest =>
      (match compileTemplate v data with
       | .error e => .error e
       | .ok cv =>
         match compileFields rest data with
         | .error e => .error e
         | .ok crest => .ok ((k, cv) :: crest))

/-- The same reduce when the template is an array (keys "0", "1", ...):
elements compiled in order. -/
def compileItems (items : List JsonVal) (data : JsonVal) :
    Except String (List JsonVal) :=
  match items with
  | [] => .ok []
  | v :: rest =>
      (match compileTemplate v data with
       | .error e => .error e
       | .ok cv =>
         match compileItems rest data with
         | .error e => .error e
         | .ok crest => .ok (cv :: crest))
end

/-
JSON.parse, as applied to the string form of a webhook's headers/payload
columns. A small recursive-descent reader: objects, arrays, strings with
the common escapes, integer literals, true/false/null. Fractional and
exponent literals and unicode escapes are outside what the studied claims
exercise and are treated as parse errors. Fuel bounds the recursion; every
recursive call first consumes at least one character, so 2*length+4 units
suffice for any input.
-/

/-- JSON whitespace skip. -/
def skipWs (cs : List Char) : List Char :=
  cs.dropWhile (fun c => c = ' ' ∨ c = '\t' ∨ c = '\n' ∨ c = '\r')

/-- Read the body of a JSON string literal after the opening quote. -/
def readStringLit : Nat → List Char → Except String (String × List Char)
  | 0, _ => .error "JSON: fuel exhausted"
  | _ + 1, [] => .error "JSON: unterminated string"
  | fuel + 1, c :: rest =>
    if c = '"' then .ok ("", rest)
    else if c = '\\' then
      match rest with
      | [] => .error "JSON: bad escape"
      | e :: rest2 =>
        let dec : Except String Char :=
          if e = '"' then .ok '"'
          else if e = '\\' then .ok '\\'
          else if e = '/' then .ok '/'
          else if e = 'n' then .ok '\n'
          else if e = 't' then .ok '\t'
          else if e = 'r' then .ok '\r'
          else .error "JSON: unsupported escape"
        do
          let c2 ← dec
          let (s, r) ← readStringLit fuel rest2
          pure (String.mk [c2] ++ s, r)
    else do
      let (s, r) ← readStringLit fuel rest
      pure (String.mk [c] ++ s, r)

/-- Read a JSON integer literal (optional minus, one or more digits). -/
def readIntLit (cs : List Char) : Except String (Int × List Char) :=
  let (neg, cs2) := match cs with
                    | '-' :: rest => (true, rest)
                    | _ => (false, cs)
  let digits := cs2.takeWhile Char.isDigit
  let rest := cs2.drop digits.length
  if digits.isEmpty then .error "JSON: bad number"
  else
    match rest with
    | '.' :: _ => .error "JSON: fractional literals not modelled"
    | 'e' :: _ => .error "JSON: exponent literals not modelled"
    | 'E' :: _ => .error "JSON: exponent literals not modelled"
    | _ =>
      let n : Nat := digits.foldl (fun acc c => acc * 10 + (c.toNat - 48)) 0
      .ok (if neg then -(Int.ofNat n) else Int.ofNat n, rest)

mutual
/-- Parse one JSON value; returns the value and the unconsumed suffix. -/
def parseJson : Nat → List Char → Except String (JsonVal × List Char)
  | 0, _ => .error "JSON: fuel exhausted"
  | fuel + 1, cs =>
    match skipWs cs with
    | 'n' :: 'u' :: 'l' :: 'l' :: rest => .ok (.null, rest)
    | 't' :: 'r' :: 'u' :: 'e' :: rest => .ok (.bool true, rest)
    | 'f' :: 'a' :: 'l' :: 's' :: 'e' :: rest => .ok (.bool false, rest)
    | '"' :: rest => do
        let (s, r) ← readStringLit (rest.length + 1) rest
        pure (.str s, r)
    | '[' :: rest =>
        (match skipWs rest with
         | ']' :: r2 => .ok (.arr [], r2)
         | _ => do
             let (items, r2) ← parseElems fuel rest
             pure (.arr items, r2))
    | '{' :: rest =>
        (match skipWs rest with
         | '}' :: r2 => .ok (.obj [], r2)
         | _ => do
             let (fields, r2) ← parseMembers fuel rest
             pure (.obj fields, r2))
    | rest => do
        let (n, r) ← readIntLit rest
        pure (.num n, r)

/-- Parse one or more comma-separated array elements then "]". -/
def parseElems : Nat → List Char → Except String (List JsonVal × List Char)
  | 0, _ => .error "JSON: fuel exhausted"
  | fuel + 1, cs => do
    let (v, r) ← parseJson fuel cs
    match skipWs r with
    | ',' :: r2 => do
        let (vs, r3) ← parseElems fuel r2
        pure (v :: vs, r3)
    | ']' :: r2 => pure ([v], r2)
    | _ => .error "JSON: expected , or ] in array"

/-- Parse one or more "key": value members then the closing brace. -/
def parseMembers : Nat → List Char → Except String (List (String × JsonVal) × List Char)
  | 0, _ => .error "JSON: fuel exhausted"
  | fuel + 1, cs =>
    match skipWs cs with
    | '"' :: rest => do
        let (k, r) ← readStringLit (rest.length + 1) rest
        match skipWs r with
        | ':' :: r2 => do
            let (v, r3) ← parseJson fuel r2
            match skipWs r3 with
            | ',' :: r4 => do
                let (ms, r5) ← parseMembers fuel r4
                pure ((k, v) :: ms, r5)
            | '}' :: r4 => pure ([(k, v)], r4)
            | _ => .error "JSON: expected , or \x7d in object"
        | _ => .error "JSON: expected : after key"
    | _ => .error "JSON: expected string key"
end

/-- JSON.parse on a whole string: one value, then only whitespace may
remain. -/
def jsonParse (s : String) : Except String JsonVal := do
  let (v, rest) ← parseJson (2 * s.toList.length + 4) s.toList
  if (skipWs rest).isEmpty then pure v else .error "JSON: trailing input"

/-
The webhook record and the delivery engine.
-/

/-- A headers/payload column as executeWebhook receives it: a JSON-encoded
string, an already-structured value, or absent (SQL NULL / undefined). -/
inductive JsonField where
  | missing
  | jstr (s : String)
  | jval (v : JsonVal)

/-- A webhook row as resolved from the registry. `url` and `method` are
optional to model absent columns; `id` is the row key used by the
last-triggered update. -/
structure Webhook where
  id : Int
  name : String
  url : Option String
  method : Option String
  headers : JsonField
  payload : JsonField

/-- JS falsiness of a JsonVal (used by the `x || \x7b\x7d` defaults). -/
def jsFalsy : JsonVal → Bool
  | .null => true
  | .bool b => !b
  | .num n => n == 0
  | .str s => s == ""
  | _ => false

/-- webhook-manager.js:85-91: headers/payload normalisation. A string field
is JSON-parsed (empty string falls back to "\x7b\x7d", i.e. the empty
object); a non-string field is taken as-is with falsy values (null,
undefined) defaulting to the empty object. A parse failure is a thrown
exception caught at line 92. -/
def parseField : JsonField → Except String JsonVal
  | .missing => .ok (.obj [])
  | .jstr s => if s = "" then .ok (.obj []) else jsonParse s
  | .jval v => .ok (if jsFalsy v then .obj [] else v)

/-- The chat-webhook marker substring checked at webhook-manager.js:82. -/
def discordMarker : String := "discord.com/api/webhooks"

/-- Does the second character list start with the first? -/
def seqStartsWith : List Char → List Char → Bool
  | [], _ => true
  | _ :: _, [] => false
  | p :: ps, c :: cs => p = c && seqStartsWith ps cs

/-- Does the character list contain the pattern as a contiguous run? -/
def seqContains (pat : List Char) : List Char → Bool
  | [] => seqStartsWith pat []
  | c :: cs => seqStartsWith pat (c :: cs) || seqContains pat cs

/-- webhook.url.includes(discordMarker). -/
def isDiscordUrl (u : String) : Bool :=
  seqContains discordMarker.toList u.toList

/-- `webhook.method || "POST"`: absent or empty (falsy) method defaults to
POST. -/
def jsMethod (w : Webhook) : String :=
  match w.method with
  | none => "POST"
  | some m => if m = "" then "POST" else m

/-- One outbound HTTP request as assembled for axios: method, url, headers
object, body. -/
structure HttpRequest where
  method : String
  url : String
  headers : JsonVal
  body : JsonVal

/-- What the remote end does with one HTTP call: return a status, or fail
at the transport level (timeout, connection error). -/
inductive HttpOutcome where
  | response (status : Nat)
  | transportError

/-- axios with the default config (as at every call site in the source)
resolves exactly for 2xx responses; non-2xx responses and transport
failures both surface as thrown errors. -/
def axiosResolves : HttpOutcome → Bool
  | .response s => decide (200 ≤ s ∧ s < 300)
  | .transportError => false

/-- The fixed header object of the chat path (webhook-manager.js:103). -/
def contentTypeJson : JsonVal := .obj [("Content-Type", .str "application/json")]

/-- Observable effects of one executeWebhook run: the HTTP requests issued,
whether control reached the last-triggered UPDATE, and whether that UPDATE
succeeded (recorded the timestamp). -/
structure ExecTrace where
  httpCalls : List HttpRequest
  updateAttempted : Bool
  recorded : Bool

def emptyTrace : ExecTrace := ⟨[], false, false⟩

/-- The tail of executeWebhook shared by both delivery paths
(webhook-manager.js:100-129): await axios, then await the last-triggered
UPDATE, then return true. A rejected axios call or a throwing UPDATE is an
exception escaping to the outer catch. `dbOk` tells whether the UPDATE
query would succeed. -/
def finishDelivery (http : HttpRequest → HttpOutcome) (dbOk : Bool)
    (req : HttpRequest) : Except String Bool × ExecTrace :=
  if axiosResolves (http req) then
    if dbOk then (.ok true, ⟨[req], true, true⟩)
    else (.error "db: update last_triggered failed", ⟨[req], true, false⟩)
  else (.error "axios: request failed", ⟨[req], false, false⟩)

/-- The body of executeWebhook's outer try (webhook-manager.js:78-129),
with thrown exceptions as Except.error. Reading url.includes on an absent
url throws; a headers/payload parse failure is handled by the inner catch
and returns false (line 94); the chat path sends the parsed payload
verbatim with the fixed JSON content type, the generic path compiles the
payload against the event data (a compile-time TypeError escapes to the
outer catch) and sends it with the webhook's declared headers. -/
def executeWebhookBody (http : HttpRequest → HttpOutcome) (dbOk : Bool)
    (w : Webhook) (data : JsonVal) : Except String Bool × ExecTrace :=
  match w.url with
  | none => (.error "TypeError: Cannot read properties of undefined (reading includes)",
             emptyTrace)
  | some url =>
    match parseField w.headers, parseField w.payload with
    | .error _, _ => (.ok false, emptyTrace)
    | .ok _, .error _ => (.ok false, emptyTrace)
    | .ok headers, .ok payload =>
      if isDiscordUrl url then
        finishDelivery http dbOk ⟨jsMethod w, url, contentTypeJson, payload⟩
      else
        match compileTemplate payload data with
        | .error e => (.error e, emptyTrace)
        | .ok compiled =>
            finishDelivery http dbOk ⟨jsMethod w, url, headers, compiled⟩

/-- executeWebhook (webhook-manager.js:77-138): the body wrapped in the
outer try/catch, which converts any thrown error into a logged `false`.
The result is always a settled boolean together with the trace. -/
def executeWebhook (http : HttpRequest → HttpOutcome) (dbOk : Bool)
    (w : Webhook) (data : JsonVal) : Bool × ExecTrace :=
  match executeWebhookBody http dbOk w data with
  | (.ok b, t) => (b, t)
  | (.error _, t) => (false, t)

/-
Event enrichment and the dispatch entry point.
-/

/-- The own enumerable entries contributed by spreading a value into an
object literal (`...data`): objects contribute their fields, arrays and
strings contribute index-keyed entries, primitives contribute nothing. -/
def spreadFields : JsonVal → List (String × JsonVal)
  | .obj fs => fs
  | .arr items => items.enum.map (fun p => (toString p.1, p.2))
  | .str s => s.toList.enum.map (fun p => (toString p.1, .str (String.mk [p.2])))
  | _ => []

/-- Object-literal assignment of one key: overwrite in place if the key is
present (keeping its position, as JS property order does), else append. -/
def objSet : List (String × JsonVal) → String → JsonVal → List (String × JsonVal)
  | [], k, v => [(k, v)]
  | (k0, v0) :: rest, k, v =>
      if k0 = k then (k0, v) :: rest else (k0, v0) :: objSet rest k v

/-- The enriched event data built at webhook-manager.js:58-62:
`\x7b ...data, event: eventType, triggeredAt: now \x7d`. -/
def enrichData (data : JsonVal) (eventType now : String) : JsonVal :=
  .obj (objSet (objSet (spreadFields data) "event" (.str eventType))
         "triggeredAt" (.str now))

/-- Top-level property read on a JsonVal, `none` = undefined. -/
def objGet (v : JsonVal) (k : String) : Option JsonVal :=
  match v with
  | .obj fs => fs.lookup k
  | _ => none

/-- triggerEventWebhooks (webhook-manager.js:47-75). The registry query's
outcome is the `resolve` oracle (its rows, or a thrown query error); `now`
is the dispatch-time ISO timestamp. A failed resolution is caught and
returns false. Zero resolved webhooks short-circuit with a bare
`return;` — JS undefined, modelled as `none` — and no deliveries. Otherwise
every webhook is delivered against the enriched data; executeWebhook never
rejects, so the Promise.all join settles with one boolean per webhook and
the function returns true. The per-delivery results are paired with the
aggregate for observation. -/
def triggerEventWebhooks (resolve : Except String (List Webhook))
    (http : HttpRequest → HttpOutcome) (dbOk : Int → Bool)
    (eventType : String) (data : JsonVal) (now : String) :
    Option Bool × List (Bool × ExecTrace) :=
  match resolve with
  | .error _ => (some false, [])
  | .ok webhooks =>
    if webhooks.isEmpty then (none, [])
    else
      let enriched := enrichData data eventType now
      (some true, webhooks.map (fun w => executeWebhook http (dbOk w.id) w enriched))

/-
The monthly summary window (getTopWatchedContent, getMonthlySummaryData).
JS Dates are modelled at calendar-day granularity as (year, 0-based month,
1-based day) with the constructor/setMonth normalisation JS performs
(month overflow rolls the year; day overflow/underflow rolls the month).
The code formats boundaries with toISOString().split("T")[0] and the SQL
compares at that granularity; the local-vs-UTC offset is abstracted away
(local midnight is treated as the date's own day).
-/

structure JsDate where
  year : Int
  month : Int
  day : Int
deriving DecidableEq, Repr

def isLeap (y : Int) : Bool :=
  (y % 4 == 0 && y % 100 != 0) || y % 400 == 0

/-- Days in a (0-based) month of a given year. -/
def daysInMonth (y m : Int) : Int :=
  if m = 1 then (if isLeap y then 29 else 28)
  else if m = 3 ∨ m = 5 ∨ m = 8 ∨ m = 10 then 30
  else 31

/-- Fold an out-of-range month into the year (JS constructor/setMonth);
the remainder is Euclidean so the normalised month lands in 0..11 and the
quotient is exact. -/
def normMonth (y m : Int) : Int × Int :=
  (y + (m - m % 12) / 12, m % 12)

/-- Roll an out-of-range day-of-month into adjacent months. Each step moves
the day by at least 28, so the fuel chosen by the callers never runs out;
on exhaustion the date is returned as-is. -/
def normDayFuel : Nat → Int → Int → Int → JsDate
  | fuel, y, m, d =>
    if 1 ≤ d ∧ d ≤ daysInMonth y m then ⟨y, m, d⟩
    else match fuel with
      | 0 => ⟨y, m, d⟩
      | fuel + 1 =>
        if d < 1 then
          let p := normMonth y (m - 1)
          normDayFuel fuel p.1 p.2 (d + daysInMonth p.1 p.2)
        else
          let p := normMonth y (m + 1)
          normDayFuel fuel p.1 p.2 (d - daysInMonth y m)

/-- Date normalisation without the constructor's two-digit-year rule
(used by setMonth). -/
def normDate (y m d : Int) : JsDate :=
  let p := normMonth y m
  normDayFuel (d.natAbs + 100) p.1 p.2 d

/-- new Date(y, m, d): years 0..99 are read as 1900+y, then the fields are
normalised. -/
def mkDate (y m d : Int) : JsDate :=
  normDate (if 0 ≤ y ∧ y ≤ 99 then y + 1900 else y) m d

/-- Calendar order on normalised dates; agrees with comparing the
YYYY-MM-DD strings the code feeds to SQL. -/
def dateLE (a b : JsDate) : Bool :=
  decide (a.year < b.year ∨ (a.year = b.year ∧
    (a.month < b.month ∨ (a.month = b.month ∧ a.day ≤ b.day))))

/-- Days since 1970-01-01 (proleptic Gregorian), for getDay(). -/
def daysSinceEpoch (dt : JsDate) : Int :=
  let m := dt.month + 1
  let y := if m ≤ 2 then dt.year - 1 else dt.year
  let era := y.ediv 400
  let yoe := y - era * 400
  let doy := (153 * (m + (if 2 < m then -3 else 9)) + 2).ediv 5 + dt.day - 1
  let doe := yoe * 365 + yoe.ediv 4 - yoe.ediv 100 + doy
  era * 146097 + doe - 719468

/-- JS Date.prototype.getDay (0 = Sunday). -/
def dayOfWeek (dt : JsDate) : Int :=
  (daysSinceEpoch dt + 4).emod 7

/-- The start date computed at webhook-manager.js:195-205: for "month"
(and any unrecognised period) the first day of the previous month; for
"week" the Sunday one week before the current week's Sunday. -/
def topContentStartDate (today : JsDate) (period : String) : JsDate :=
  if period = "month" then mkDate today.year (today.month - 1) 1
  else if period = "week" then
    mkDate today.year today.month (today.day - dayOfWeek today - 7)
  else mkDate today.year (today.month - 1) 1

/-- The WHERE clause of both top-content queries keeps a row iff its
activity date is on/after the start date; there is no upper bound
(webhook-manager.js:218 and 232: ActivityDateInserted >= start only). -/
def topDateCond (today : JsDate) (d : JsDate) : Bool :=
  dateLE (topContentStartDate today "month") d

/-- prevMonth at webhook-manager.js:255-256: today with setMonth(m-1). -/
def prevMonthDate (today : JsDate) : JsDate :=
  normDate today.year (today.month - 1) today.day

/-- prevMonthStart: new Date(prevMonth.getFullYear(), prevMonth.getMonth(), 1). -/
def prevMonthStart (today : JsDate) : JsDate :=
  let p := prevMonthDate today
  mkDate p.year p.month 1

/-- prevMonthEnd: new Date(prevMonth.getFullYear(), prevMonth.getMonth()+1, 0),
the last day of prevMonth's month. -/
def prevMonthEnd (today : JsDate) : JsDate :=
  let p := prevMonthDate today
  mkDate p.year (p.month + 1) 0

/-- The WHERE clause of the aggregate-statistics query keeps a row iff its
activity date is BETWEEN prevMonthStart AND prevMonthEnd
(webhook-manager.js:270). -/
def statsDateCond (today : JsDate) (d : JsDate) : Bool :=
  dateLE (prevMonthStart today) d && dateLE d (prevMonthEnd today)

/-- One row of jf_playback_activity, at the granularity the three summary
queries inspect. -/
structure ActivityRow where
  userId : String
  itemName : Option String
  seriesName : Option String
  durationMs : Int
  activityDate : JsDate

/-- Row filter of the movie branch (webhook-manager.js:212-224): date
window plus NowPlayingItemName IS NOT NULL AND SeriesName IS NULL. The
GROUP/ORDER/LIMIT aggregation ranks within this selection and is not
window-relevant. -/
def movieRowSelected (today : JsDate) (r : ActivityRow) : Bool :=
  topDateCond today r.activityDate && r.itemName.isSome && r.seriesName.isNone

/-- Row filter of the series branch (webhook-manager.js:226-237): date
window plus SeriesName IS NOT NULL. -/
def seriesRowSelected (today : JsDate) (r : ActivityRow) : Bool :=
  topDateCond today r.activityDate && r.seriesName.isSome

/-- Row filter of the statistics query (webhook-manager.js:264-271). -/
def statsRowSelected (today : JsDate) (r : ActivityRow) : Bool :=
  statsDateCond today r.activityDate

/-- A date as new Date() can produce it: month in range, day in range. -/
def NormalizedDate (dt : JsDate) : Prop :=
  0 ≤ dt.month ∧ dt.month ≤ 11 ∧ 1 ≤ dt.day ∧ dt.day ≤ daysInMonth dt.year dt.month

instance (dt : JsDate) : Decidable (NormalizedDate dt) := by
  unfold NormalizedDate; infer_instance

/-
Concrete fixtures used by witnesses and counterexamples.
-/

/-- An HTTP endpoint that always answers 200. -/
def httpAll200 : HttpRequest → HttpOutcome := fun _ => .response 200

/-- An HTTP endpoint that always answers 404 (a returned response, not a
transport failure). -/
def httpAll404 : HttpRequest → HttpOutcome := fun _ => .response 404

/-- A chat-webhook row: Discord URL, declared custom headers, structured
payload. -/
def whDiscord : Webhook :=
  ⟨1, "d", some "https://discord.com/api/webhooks/1/t", none,
   .jval (.obj [("X-Custom", .str "y")]), .jval (.obj [("content", .str "hi")])⟩

/-- The request the chat path assembles for whDiscord. -/
def reqDiscord : HttpRequest :=
  ⟨"POST", "https://discord.com/api/webhooks/1/t", contentTypeJson,
   .obj [("content", .str "hi")]⟩

/-- A generic webhook row with string-encoded headers and a templated
payload. -/
def whGeneric : Webhook :=
  ⟨2, "g", some "https://example.com/hook", some "PUT",
   .jstr "\x7b\"A\": \"b\"\x7d",
   .jstr "\x7b\"user\": \"\x7b\x7bdata.userName\x7d\x7d\"\x7d"⟩

/-- A webhook row whose headers column is malformed JSON. -/
def whMalformed : Webhook :=
  ⟨3, "bad", some "https://example.com/x", none, .jstr "\x7b", .missing⟩

/-- A webhook row with an absent url column. -/
def whNoUrl : Webhook := ⟨4, "nourl", none, none, .missing, .missing⟩

/-- Sample event data. -/
def dataFix : JsonVal := .obj [("data", .obj [("userName", .str "alice")])]

/-
Helper lemmas.
-/

/-- The outer catch of executeWebhook changes only the returned boolean;
the observable trace is the body's trace. -/
theorem executeWebhook_trace (http : HttpRequest → HttpOutcome) (dbOk : Bool)
    (w : Webhook) (data : JsonVal) :
    (executeWebhook http dbOk w data).2 = (executeWebhookBody http dbOk w data).2 := by
  unfold executeWebhook
  rcases h : executeWebhookBody http dbOk w data with ⟨e, t⟩
  cases e <;> simp

/-- C1 (amended): the last-triggered UPDATE is reached if and only if the
single HTTP call of the delivery was issued and resolved, i.e. returned a
2xx status under axios's default validation; a non-2xx response (surfaced
as a thrown error) or a transport exception never reaches the UPDATE. -/
theorem c1_lastTriggered_iff_axios_resolves (http : HttpRequest → HttpOutcome)
    (dbOk : Bool) (w : Webhook) (data : JsonVal) :
    (executeWebhook http dbOk w data).2.updateAttempted = true ↔
      ∃ r, (executeWebhook http dbOk w data).2.httpCalls = [r] ∧
        axiosResolves (http r) = true := by
  rw [executeWebhook_trace]
  unfold executeWebhookBody
  cases hu : w.url with
  | none => simp [emptyTrace]
  | some url =>
    cases hh : parseField w.headers with
    | error e => simp [emptyTrace]
    | ok hv =>
      cases hp : parseField w.payload with
      | error e => simp [emptyTrace]
      | ok pv =>
        by_cases hd : isDiscordUrl url
        · simp only [hd, if_true]
          unfold finishDelivery
          by_cases hr : axiosResolves (http ⟨jsMethod w, url, contentTypeJson, pv⟩)
          · cases dbOk <;> simp_all
          · simp_all
        · simp only [hd, if_false]
          cases hc : compileTemplate pv data with
          | error e => simp [emptyTrace]
          | ok cv =>
            unfold finishDelivery
            by_cases hr : axiosResolves (http ⟨jsMethod w, url, hv, cv⟩)
            · cases dbOk <;> simp_all
            · simp_all

/-- C1 counterexample: a delivery whose HTTP call returns a 404 response —
a returned status, not a transport exception — does NOT record the
last-triggered timestamp: the call is issued (one request in the trace)
but the UPDATE is never reached and the delivery returns false. -/
theorem c1_counterexample :
    httpAll404 reqDiscord = HttpOutcome.response 404 ∧
    executeWebhook httpAll404 true whDiscord dataFix =
      (false, ⟨[reqDiscord], false, false⟩) :=
  ⟨rfl, rfl⟩

/-- C2 (amended): when the HTTP call has completed (the UPDATE was
reached) but the last-triggered record-update fails, the thrown update
error is caught inside executeWebhook (the body ends in a thrown error,
yet executeWebhook still settles), the timestamp is not recorded, and the
delivery is reported as FAILED: executeWebhook returns false, not true. -/
theorem c2_update_failure_flips_outcome (http : HttpRequest → HttpOutcome)
    (w : Webhook) (data : JsonVal)
    (h : (executeWebhook http false w data).2.updateAttempted = true) :
    (executeWebhook http false w data).1 = false ∧
    (executeWebhook http false w data).2.recorded = false ∧
    ∃ e, (executeWebhookBody http false w data).1 = .error e := by
  rw [executeWebhook_trace] at h
  unfold executeWebhook executeWebhookBody at *
  cases hu : w.url with
  | none => simp [hu, emptyTrace] at h
  | some url =>
    simp only [hu] at h
    cases hh : parseField w.headers with
    | error e => simp_all [emptyTrace]
    | ok hv =>
      cases hp : parseField w.payload with
      | error e => simp_all [emptyTrace]
      | ok pv =>
        simp only [hh, hp] at h ⊢
        by_cases hd : isDiscordUrl url
        · simp only [hd, if_true] at h ⊢
          unfold finishDelivery at h ⊢
          by_cases hr : axiosResolves (http ⟨jsMethod w, url, contentTypeJson, pv⟩)
          · simp_all
          · simp_all
        · simp only [hd, if_false] at h ⊢
          cases hc : compileTemplate pv data with
          | error e => simp_all [emptyTrace]
          | ok cv =>
            simp only [hc] at h ⊢
            unfold finishDelivery at h ⊢
            by_cases hr : axiosResolves (http ⟨jsMethod w, url, hv, cv⟩)
            · simp_all
            · simp_all

/-- C2 witness: a concrete delivery that completes its HTTP call with 200
but whose record-update fails; the theorem applies and the outcome is
false. -/
theorem c2_witness :
    (executeWebhook httpAll200 false whDiscord dataFix).2.updateAttempted = true ∧
    (executeWebhook httpAll200 false whDiscord dataFix).1 = false :=
  ⟨rfl, (c2_update_failure_flips_outcome httpAll200 whDiscord dataFix rfl).1⟩

/-- C2 counterexample: with the HTTP call completed (status 200, request
issued, UPDATE reached) and the record-update failing, executeWebhook
reports the delivery as failed (false), contradicting the claim that the
delivery would still be reported successful. -/
theorem c2_counterexample :
    httpAll200 reqDiscord = HttpOutcome.response 200 ∧
    executeWebhook httpAll200 false whDiscord dataFix =
      (false, ⟨[reqDiscord], true, false⟩) :=
  ⟨rfl, rfl⟩

/-- C6 (amended): with zero matching webhooks, triggerEventWebhooks takes
the early bare `return;` at webhook-manager.js:53: the caller receives
undefined — not the aggregate boolean true — and no delivery is started,
so zero HTTP calls are issued. -/
theorem c6_empty_resolution_is_undefined_noop (http : HttpRequest → HttpOutcome)
    (dbOk : Int → Bool) (eventType : String) (data : JsonVal) (now : String) :
    triggerEventWebhooks (.ok []) http dbOk eventType data now = (none, []) := by
  simp [triggerEventWebhooks]

/-- C6 counterexample: a concrete dispatch with an empty resolution
returns undefined (`none`) and an empty delivery list; in particular the
returned value is NOT the boolean true the claim promises. -/
theorem c6_counterexample :
    triggerEventWebhooks (.ok []) httpAll200 (fun _ => true) "playback_started"
      dataFix "2026-10-11T00:00:00.000Z" = (none, []) ∧
    (triggerEventWebhooks (.ok []) httpAll200 (fun _ => true) "playback_started"
      dataFix "2026-10-11T00:00:00.000Z").1 ≠ some true :=
  ⟨rfl, by decide⟩

/-- C9: executeWebhook settles to a boolean for every webhook record and
every oracle behaviour — its outer catch converts each internally thrown
error into false — so the Promise.all join of triggerEventWebhooks never
rejects: for every nonempty list of resolved rows (including rows with
absent url or malformed headers/payload) the dispatch returns the
aggregate true together with one settled boolean outcome per webhook. -/
theorem c9_dispatch_always_settles (ws : List Webhook)
    (http : HttpRequest → HttpOutcome) (dbOk : Int → Bool)
    (eventType : String) (data : JsonVal) (now : String) (hne : ws ≠ []) :
    (triggerEventWebhooks (.ok ws) http dbOk eventType data now).1 = some true ∧
    (triggerEventWebhooks (.ok ws) http dbOk eventType data now).2.length = ws.length := by
  cases ws with
  | nil => exact absurd rfl hne
  | cons a t => simp [triggerEventWebhooks]

/-- C9 witness: a dispatch over two thoroughly broken rows (absent url;
malformed headers) with a failing endpoint and a failing store still
settles: aggregate true and one outcome per webhook. -/
theorem c9_witness :
    ([whNoUrl, whMalformed] : List Webhook) ≠ [] ∧
    (triggerEventWebhooks (.ok [whNoUrl, whMalformed]) httpAll404 (fun _ => false)
      "playback_ended" dataFix "T").1 = some true ∧
    (triggerEventWebhooks (.ok [whNoUrl, whMalformed]) httpAll404 (fun _ => false)
      "playback_ended" dataFix "T").2.length = 2 :=
  ⟨by simp,
   (c9_dispatch_always_settles [whNoUrl, whMalformed] httpAll404 (fun _ => false)
     "playback_ended" dataFix "T" (by simp)).1,
   (c9_dispatch_always_settles [whNoUrl, whMalformed] httpAll404 (fun _ => false)
     "playback_ended" dataFix "T" (by simp)).2⟩

/-- Looking up the key just assigned by objSet yields the new value. -/
theorem lookup_objSet_self (fs : List (String × JsonVal)) (k : String) (v : JsonVal) :
    (objSet fs k v).lookup k = some v := by
  induction fs with
  | nil => simp [objSet, List.lookup]
  | cons p rest ih =>
    obtain ⟨k0, v0⟩ := p
    by_cases h : k0 = k
    · simp [objSet, h, List.lookup]
    · have hb : (k == k0) = false := beq_eq_false_iff_ne.mpr (Ne.symm h)
      simp [objSet, h, List.lookup, hb, ih]

/-- Looking up a different key is unaffected by objSet. -/
theorem lookup_objSet_other (fs : List (String × JsonVal)) (k k0 : String)
    (v : JsonVal) (h : k ≠ k0) : (objSet fs k0 v).lookup k = fs.lookup k := by
  have hb : (k == k0) = false := beq_eq_false_iff_ne.mpr h
  induction fs with
  | nil => simp [objSet, List.lookup, hb]
  | cons p rest ih =>
    obtain ⟨k1, v1⟩ := p
    by_cases h1 : k1 = k0
    · subst h1
      simp [objSet, List.lookup, hb]
    · simp [objSet, h1, List.lookup, ih]

/-- C10: the enrichment at webhook-manager.js:58-62 overrides producer
data: in the enriched tree, "event" is bound to the event name and
"triggeredAt" to the dispatch-time timestamp — overwriting any
producer-supplied values under those keys — while every other top-level
key keeps its original producer-supplied value. -/
theorem c10_enrichment_overrides (fs : List (String × JsonVal)) (ev now : String) :
    objGet (enrichData (.obj fs) ev now) "event" = some (.str ev) ∧
    objGet (enrichData (.obj fs) ev now) "triggeredAt" = some (.str now) ∧
    ∀ k, k ≠ "event" → k ≠ "triggeredAt" →
      objGet (enrichData (.obj fs) ev now) k = objGet (.obj fs) k := by
  refine ⟨?_, ?_, ?_⟩
  · show (objSet (objSet fs "event" (.str ev)) "triggeredAt" (.str now)).lookup "event"
      = some (.str ev)
    rw [lookup_objSet_other _ _ _ _ (by decide)]
    exact lookup_objSet_self fs "event" (.str ev)
  · exact lookup_objSet_self _ "triggeredAt" (.str now)
  · intro k h1 h2
    show (objSet (objSet fs "event" (.str ev)) "triggeredAt" (.str now)).lookup k
      = fs.lookup k
    rw [lookup_objSet_other _ _ _ _ h2, lookup_objSet_other _ _ _ _ h1]

/-- C10 witness: concrete enrichment of a tree that already carries an
"event" key and an unrelated "user" key: "event" is overwritten,
"triggeredAt" added, "user" untouched. -/
theorem c10_witness :
    objGet (enrichData (.obj [("user", .str "alice"), ("event", .str "stale")])
      "playback_started" "2026-10-11T00:00:00.000Z") "event"
      = some (.str "playback_started") ∧
    objGet (enrichData (.obj [("user", .str "alice"), ("event", .str "stale")])
      "playback_started" "2026-10-11T00:00:00.000Z") "triggeredAt"
      = some (.str "2026-10-11T00:00:00.000Z") ∧
    objGet (enrichData (.obj [("user", .str "alice"), ("event", .str "stale")])
      "playback_started" "2026-10-11T00:00:00.000Z") "user"
      = objGet (.obj [("user", .str "alice"), ("event", .str "stale")]) "user" :=
  ⟨(c10_enrichment_overrides _ "playback_started" "2026-10-11T00:00:00.000Z").1,
   (c10_enrichment_overrides _ "playback_started" "2026-10-11T00:00:00.000Z").2.1,
   (c10_enrichment_overrides _ "playback_started" "2026-10-11T00:00:00.000Z").2.2
     "user" (by decide) (by decide)⟩

/-- C8: on the chat path — the url contains the marker substring — the
delivery issues exactly one request whose body is the webhook's parsed
payload verbatim (no template compilation against the event data), whose
header object is the single fixed Content-Type: application/json (the
declared headers are ignored on this path), and whose method is the
declared method or POST by default; the request is issued whatever its
outcome. -/
theorem c8_discord_path (http : HttpRequest → HttpOutcome) (dbOk : Bool)
    (w : Webhook) (data : JsonVal) (u : String) (hv pv : JsonVal)
    (hu : w.url = some u) (hd : isDiscordUrl u = true)
    (hh : parseField w.headers = .ok hv) (hp : parseField w.payload = .ok pv) :
    (executeWebhook http dbOk w data).2.httpCalls =
      [⟨jsMethod w, u, contentTypeJson, pv⟩] := by
  rw [executeWebhook_trace]
  unfold executeWebhookBody
  rw [hu]
  simp only [hh, hp, hd, if_true]
  unfold finishDelivery
  by_cases hr : axiosResolves (http ⟨jsMethod w, u, contentTypeJson, pv⟩) <;>
    cases dbOk <;> simp_all

/-- C8 witness: the concrete Discord-url webhook with declared custom
headers sends exactly one request: POST, verbatim parsed payload, fixed
JSON content type. -/
theorem c8_witness :
    whDiscord.url = some "https://discord.com/api/webhooks/1/t" ∧
    isDiscordUrl "https://discord.com/api/webhooks/1/t" = true ∧
    (executeWebhook httpAll200 true whDiscord dataFix).2.httpCalls = [reqDiscord] :=
  ⟨rfl, rfl,
   c8_discord_path httpAll200 true whDiscord dataFix
     "https://discord.com/api/webhooks/1/t" (.obj [("X-Custom", .str "y")])
     (.obj [("content", .str "hi")]) rfl rfl rfl rfl⟩

/-- Hypothesis package for one cleanly delivering row: url present,
headers and payload parse, and the request the relevant path assembles
gets a 2xx answer. -/
def cleanDelivery (http : HttpRequest → HttpOutcome) (w : Webhook)
    (data : JsonVal) : Prop :=
  ∃ u hv pv, w.url = some u ∧ parseField w.headers = .ok hv ∧
    parseField w.payload = .ok pv ∧
    (if isDiscordUrl u = true then
       axiosResolves (http ⟨jsMethod w, u, contentTypeJson, pv⟩) = true
     else ∃ cv, compileTemplate pv data = .ok cv ∧
       axiosResolves (http ⟨jsMethod w, u, hv, cv⟩) = true)

/-- A row with malformed headers or payload JSON (and a readable url)
fails before any HTTP call: the inner catch returns false with an empty
trace. -/
theorem executeWebhook_malformed (http : HttpRequest → HttpOutcome)
    (dbOk : Bool) (w : Webhook) (data : JsonVal) (u : String)
    (hu : w.url = some u)
    (hm : (parseField w.headers).isOk = false ∨
          (parseField w.payload).isOk = false) :
    executeWebhook http dbOk w data = (false, emptyTrace) := by
  unfold executeWebhook executeWebhookBody
  rw [hu]
  rcases hm with hm | hm
  · cases hh : parseField w.headers with
    | error e => rfl
    | ok hv => rw [hh] at hm; simp [Except.isOk, Except.toBool] at hm
  · cases hh : parseField w.headers with
    | error e => rfl
    | ok hv =>
      cases hp : parseField w.payload with
      | error e => rfl
      | ok pv => rw [hp] at hm; simp [Except.isOk, Except.toBool] at hm

/-- A clean row delivers: executeWebhook reports true and issued exactly
one HTTP request. -/
theorem executeWebhook_clean (http : HttpRequest → HttpOutcome) (w : Webhook)
    (data : JsonVal) (hc : cleanDelivery http w data) :
    (executeWebhook http true w data).1 = true ∧
    (executeWebhook http true w data).2.httpCalls.length = 1 := by
  obtain ⟨u, hv, pv, hu, hh, hp, hrest⟩ := hc
  unfold executeWebhook executeWebhookBody
  rw [hu]
  simp only [hh, hp]
  by_cases hd : isDiscordUrl u = true
  · rw [if_pos hd] at hrest
    simp only [hd, if_true]
    unfold finishDelivery
    rw [hrest]
    simp
  · rw [if_neg hd] at hrest
    obtain ⟨cv, hcv, hr⟩ := hrest
    simp only [hd, if_false, hcv]
    unfold finishDelivery
    rw [hr]
    simp

/-- C7: dispatching a list in which exactly the i-th row has malformed
headers/payload JSON while every other row delivers cleanly: the join
settles with one outcome per webhook (aggregate true, full-length result
list), the malformed row reports failure with zero HTTP calls, and every
sibling row reports success with its one HTTP call — the one failure
neither cancels nor blocks the others. -/
theorem c7_fault_isolation (ws : List Webhook) (http : HttpRequest → HttpOutcome)
    (eventType : String) (data : JsonVal) (now : String) (i : Nat)
    (hi : i < ws.length) (u : String)
    (hu : (ws.get ⟨i, hi⟩).url = some u)
    (hm : (parseField (ws.get ⟨i, hi⟩).headers).isOk = false ∨
          (parseField (ws.get ⟨i, hi⟩).payload).isOk = false)
    (hc : ∀ j (hj : j < ws.length), j ≠ i →
      cleanDelivery http (ws.get ⟨j, hj⟩) (enrichData data eventType now)) :
    (triggerEventWebhooks (.ok ws) http (fun _ => true) eventType data now).1
      = some true ∧
    (triggerEventWebhooks (.ok ws) http (fun _ => true) eventType data now).2.length
      = ws.length ∧
    (triggerEventWebhooks (.ok ws) http (fun _ => true) eventType data now).2.get? i
      = some (false, emptyTrace) ∧
    ∀ j (hj : j < ws.length), j ≠ i →
      ∃ t, (triggerEventWebhooks (.ok ws) http (fun _ => true) eventType data now).2.get? j
        = some (true, t) ∧ t.httpCalls.length = 1 := by
  have hemp : ws.isEmpty = false := by
    cases ws
    · exact absurd hi (by simp)
    · rfl
  have heq : triggerEventWebhooks (.ok ws) http (fun _ => true) eventType data now
      = (some true, ws.map (fun w =>
          executeWebhook http true w (enrichData data eventType now))) := by
    cases ws with
    | nil => exact absurd hi (by simp)
    | cons a t => rfl
  rw [heq]
  refine ⟨rfl, by simp, ?_, ?_⟩
  · show (ws.map _).get? i = _
    rw [List.get?_map, List.get?_eq_get hi]
    show some (executeWebhook http true (ws.get ⟨i, hi⟩) (enrichData data eventType now))
      = some (false, emptyTrace)
    rw [executeWebhook_malformed http true (ws.get ⟨i, hi⟩)
      (enrichData data eventType now) u hu hm]
  · intro j hj hne
    have h := executeWebhook_clean http (ws.get ⟨j, hj⟩)
      (enrichData data eventType now) (hc j hj hne)
    refine ⟨(executeWebhook http true (ws.get ⟨j, hj⟩) (enrichData data eventType now)).2,
      ?_, h.2⟩
    show (ws.map _).get? j = _
    rw [List.get?_map, List.get?_eq_get hj]
    show some (executeWebhook http true (ws.get ⟨j, hj⟩) (enrichData data eventType now))
      = some (true, (executeWebhook http true (ws.get ⟨j, hj⟩) (enrichData data eventType now)).2)
    exact congrArg some (Prod.ext_iff.mpr ⟨h.1, rfl⟩)

/-- C7 witness: two rows, the first with malformed headers JSON, the
second a clean Discord row, against an all-200 endpoint: the malformed one
yields (false, no calls), the sibling delivers with one call, and the
dispatch settles over both. -/
theorem c7_witness :
    ((parseField whMalformed.headers).isOk = false ∨
      (parseField whMalformed.payload).isOk = false) ∧
    (triggerEventWebhooks (.ok [whMalformed, whDiscord]) httpAll200 (fun _ => true)
      "playback_started" dataFix "T").1 = some true ∧
    (triggerEventWebhooks (.ok [whMalformed, whDiscord]) httpAll200 (fun _ => true)
      "playback_started" dataFix "T").2.get? 0 = some (false, emptyTrace) ∧
    (∃ t, (triggerEventWebhooks (.ok [whMalformed, whDiscord]) httpAll200 (fun _ => true)
      "playback_started" dataFix "T").2.get? 1 = some (true, t) ∧
      t.httpCalls.length = 1) := by
  have hc : ∀ j (hj : j < ([whMalformed, whDiscord] : List Webhook).length), j ≠ 0 →
      cleanDelivery httpAll200 (([whMalformed, whDiscord] : List Webhook).get ⟨j, hj⟩)
        (enrichData dataFix "playback_started" "T") := by
    intro j hj hne
    match j with
    | 0 => exact absurd rfl hne
    | 1 =>
      refine ⟨"https://discord.com/api/webhooks/1/t", .obj [("X-Custom", .str "y")],
        .obj [("content", .str "hi")], rfl, rfl, rfl, ?_⟩
      rw [if_pos (show isDiscordUrl "https://discord.com/api/webhooks/1/t" = true from rfl)]
      rfl
    | j + 2 => exact absurd hj (by simp)
  have h := c7_fault_isolation [whMalformed, whDiscord] httpAll200 "playback_started"
    dataFix "T" 0 (by simp) "https://example.com/x" rfl (Or.inl rfl) hc
  exact ⟨Or.inl rfl, h.1, h.2.2.1, h.2.2.2 1 (by simp) (by simp)⟩

/-- C4: the path walk guards against undefined but NOT against null
(webhook-manager.js:153 checks `value === undefined` only), so a template
placeholder whose path crosses a null intermediate value THROWS a
TypeError instead of leaving the placeholder text unchanged. The second
conjunct shows the intended behaviour on the very same template when the
intermediate value is merely absent: the literal text survives and no
error is raised — the null case is the slip. -/
theorem c4_null_intermediate_throws :
    compileTemplate (.str "\x7b\x7ba.b\x7d\x7d") (.obj [("a", .null)]) =
      .error "TypeError: Cannot read properties of null" ∧
    compileTemplate (.str "\x7b\x7ba.b\x7d\x7d") (.obj [("a", .obj [])]) =
      .ok (.str "\x7b\x7ba.b\x7d\x7d") :=
  ⟨rfl, rfl⟩

/-- Key preservation of the object branch: a successful reduce over a
mapping template yields exactly the input keys, in order. -/
theorem compileFields_keys (data : JsonVal) :
    ∀ fields fs2, compileFields fields data = .ok fs2 →
      fs2.map Prod.fst = fields.map Prod.fst := by
  intro fields
  induction fields with
  | nil =>
    intro fs2 h
    simp only [compileFields] at h
    cases h
    rfl
  | cons p rest ih =>
    intro fs2 h
    obtain ⟨k, v⟩ := p
    simp only [compileFields] at h
    cases hcv : compileTemplate v data with
    | error e => rw [hcv] at h; cases h
    | ok cv =>
      rw [hcv] at h
      cases hcr : compileFields rest data with
      | error e => rw [hcr] at h; cases h
      | ok crest =>
        rw [hcr] at h
        cases h
        simp [ih crest hcr]

/-- A successful reduce over an array template compiles elementwise,
preserving the length. -/
theorem compileItems_length (data : JsonVal) :
    ∀ items cs, compileItems items data = .ok cs → cs.length = items.length := by
  intro items
  induction items with
  | nil =>
    intro cs h
    simp only [compileItems] at h
    cases h
    rfl
  | cons v rest ih =>
    intro cs h
    simp only [compileItems] at h
    cases hcv : compileTemplate v data with
    | error e => rw [hcv] at h; cases h
    | ok cv =>
      rw [hcv] at h
      cases hcr : compileItems rest data with
      | error e => rw [hcr] at h; cases h
      | ok crest =>
        rw [hcr] at h
        cases h
        simp [ih crest hcr]

/-- C5 (amended): compileTemplate preserves mapping structure — a
successfully compiled mapping template is a mapping with exactly the input
key set in order — and returns numbers and booleans unchanged; but the two
remaining JSON shapes are NOT preserved: a null template throws a
TypeError (Object.keys(null)), and a sequence template is rebuilt as a
MAPPING keyed by its index strings "0", "1", ... rather than staying a
sequence. -/
theorem c5_structure (data : JsonVal) :
    (∀ n, compileTemplate (.num n) data = .ok (.num n)) ∧
    (∀ b, compileTemplate (.bool b) data = .ok (.bool b)) ∧
    (compileTemplate .null data).isOk = false ∧
    (∀ fields cv, compileTemplate (.obj fields) data = .ok cv →
       ∃ fs2, cv = .obj fs2 ∧ fs2.map Prod.fst = fields.map Prod.fst) ∧
    (∀ items cv, compileTemplate (.arr items) data = .ok cv →
       ∃ fs2, cv = .obj fs2 ∧
         fs2.map Prod.fst = (List.range items.length).map toString) := by
  refine ⟨fun n => rfl, fun b => rfl, rfl, ?_, ?_⟩
  · intro fields cv h
    simp only [compileTemplate] at h
    cases hcf : compileFields fields data with
    | error e => rw [hcf] at h; cases h
    | ok fs2 =>
      rw [hcf] at h
      cases h
      exact ⟨fs2, rfl, compileFields_keys data fields fs2 hcf⟩
  · intro items cv h
    simp only [compileTemplate] at h
    cases hci : compileItems items data with
    | error e => rw [hci] at h; cases h
    | ok cs =>
      rw [hci] at h
      cases h
      refine ⟨cs.enum.map (fun p => (toString p.1, p.2)), rfl, ?_⟩
      rw [← compileItems_length data items cs hci]
      rw [List.map_map, ← List.enum_map_fst cs, List.map_map]
      rfl

/-- C5 witness: a concrete sequence template whose single element is a
substituting string compiles through the amended characterisation: the
result is a mapping keyed "0". -/
theorem c5_witness :
    compileTemplate (.arr [.str "\x7b\x7ba\x7d\x7d"]) (.obj [("a", .num 3)]) =
      .ok (.obj [("0", .str "3")]) ∧
    (∃ fs2, (JsonVal.obj [("0", .str "3")]) = .obj fs2 ∧
      fs2.map Prod.fst = (List.range 1).map toString) :=
  ⟨rfl,
   (c5_structure (.obj [("a", .num 3)])).2.2.2.2 [.str "\x7b\x7ba\x7d\x7d"]
     (.obj [("0", .str "3")]) rfl⟩

/-- C5 counterexample: a concrete sequence template [1, 2] compiles to a
MAPPING with keys "0", "1" — sequences do not remain sequences — and a
null template is not returned unchanged but raises a TypeError. -/
theorem c5_counterexample :
    compileTemplate (.arr [.num 1, .num 2]) (.obj []) =
      .ok (.obj [("0", .num 1), ("1", .num 2)]) ∧
    (compileTemplate .null (.obj [])).isOk = false :=
  ⟨rfl, rfl⟩

/-- Every month length is at least 28 days. -/
theorem daysInMonth_ge (y m : Int) : 28 ≤ daysInMonth y m := by
  unfold daysInMonth
  split_ifs <;> omega

/-- An in-range day needs no rolling, whatever the fuel. -/
theorem normDayFuel_inRange (fuel : Nat) (y m d : Int)
    (h1 : 1 ≤ d) (h2 : d ≤ daysInMonth y m) :
    normDayFuel fuel y m d = ⟨y, m, d⟩ := by
  unfold normDayFuel
  rw [if_pos ⟨h1, h2⟩]

/-- Month normalisation is the identity on in-range months. -/
theorem normMonth_inRange (y m : Int) (h1 : 0 ≤ m) (h2 : m < 12) :
    normMonth y m = (y, m) := by
  unfold normMonth
  exact Prod.ext_iff.mpr ⟨by omega, by omega⟩

/-- Month normalisation rolls month -1 into December of the previous
year. -/
theorem normMonth_negOne (y : Int) : normMonth y (-1) = (y - 1, 11) := by
  unfold normMonth
  exact Prod.ext_iff.mpr ⟨by omega, by omega⟩

/-- Unfolding equation for normDate. -/
theorem normDate_eq (y m d : Int) :
    normDate y m d = normDayFuel (d.natAbs + 100) (normMonth y m).1 (normMonth y m).2 d := by
  unfold normDate
  rfl

/-- Unfolding equation for mkDate outside the two-digit-year range. -/
theorem mkDate_eq (y m d : Int) (hy : ¬(0 ≤ y ∧ y ≤ 99)) :
    mkDate y m d = normDayFuel (d.natAbs + 100) (normMonth y m).1 (normMonth y m).2 d := by
  unfold mkDate
  rw [if_neg hy, normDate_eq]

/-- The "month" period start is the first day of the previous month. -/
theorem topContentStartDate_month (today : JsDate) :
    topContentStartDate today "month" = mkDate today.year (today.month - 1) 1 := by
  unfold topContentStartDate
  rw [if_pos rfl]

/-- C3 (amended): for a normalised current date (day at most 28, so
setMonth does not overflow, and a four-digit year), the statistics window
and the top-content window share the same START — the first day of the
previous calendar month — but not the same shape: the statistics query is
additionally bounded above by the previous month's last day, while the two
top-content queries have NO upper bound at all (their window is upward
closed: any row on or after the start is selected, however recent). -/
theorem c3_windows (today : JsDate) (hn : NormalizedDate today)
    (hy : 1900 ≤ today.year) (hd : today.day ≤ 28) :
    prevMonthStart today = topContentStartDate today "month" ∧
    (∀ d, statsDateCond today d =
      (topDateCond today d && dateLE d (prevMonthEnd today))) ∧
    (∀ d1 d2, topDateCond today d1 = true → dateLE d1 d2 = true →
      topDateCond today d2 = true) := by
  obtain ⟨hm0, hm1, hd1, hd2⟩ := hn
  have key : ∃ py pm, normMonth today.year (today.month - 1) = (py, pm) ∧
      0 ≤ pm ∧ pm < 12 ∧ 1899 ≤ py := by
    by_cases h : 1 ≤ today.month
    · exact ⟨today.year, today.month - 1,
        normMonth_inRange _ _ (by omega) (by omega), by omega, by omega, by omega⟩
    · have h0 : today.month = 0 := by omega
      refine ⟨today.year - 1, 11, ?_, by omega, by omega, by omega⟩
      rw [h0, show (0 : Int) - 1 = -1 from by decide]
      exact normMonth_negOne _
  obtain ⟨py, pm, hp, hpm0, hpm1, hpy⟩ := key
  have hdim : 28 ≤ daysInMonth py pm := daysInMonth_ge py pm
  have hstart : prevMonthStart today = topContentStartDate today "month" := by
    have hprev : prevMonthDate today = ⟨py, pm, today.day⟩ := by
      unfold prevMonthDate
      rw [normDate_eq, hp]
      exact normDayFuel_inRange _ py pm today.day hd1 (by omega)
    have htop : topContentStartDate today "month" = ⟨py, pm, 1⟩ := by
      rw [topContentStartDate_month, mkDate_eq _ _ _ (by omega), hp]
      exact normDayFuel_inRange _ py pm 1 (by omega) (by omega)
    unfold prevMonthStart
    rw [hprev, htop]
    show mkDate py pm 1 = _
    rw [mkDate_eq _ _ _ (by omega), normMonth_inRange py pm hpm0 hpm1]
    exact normDayFuel_inRange _ py pm 1 (by omega) (by omega)
  refine ⟨hstart, ?_, ?_⟩
  · intro d
    unfold statsDateCond topDateCond
    rw [hstart]
  · intro d1 d2 h1 h2
    unfold topDateCond at h1 ⊢
    unfold dateLE at h1 h2 ⊢
    simp only [decide_eq_true_eq] at h1 h2 ⊢
    omega

/-- An activity row dated inside the CURRENT month (Oct 5, 2026, with the
current date Oct 11, 2026). -/
def rowOct5 : ActivityRow := ⟨"u1", some "Film", none, 3600000, ⟨2026, 9, 5⟩⟩

/-- C3 counterexample: with the current date Oct 11 2026, a playback row
dated Oct 5 2026 — after the previous month — IS selected by the
top-movies query (whose WHERE clause has no end bound) but is NOT inside
the statistics window [Sep 1, Sep 30]: the three queries are not computed
over the same window; their end bounds differ. -/
theorem c3_counterexample :
    topDateCond ⟨2026, 9, 11⟩ ⟨2026, 9, 5⟩ = true ∧
    statsDateCond ⟨2026, 9, 11⟩ ⟨2026, 9, 5⟩ = false ∧
    movieRowSelected ⟨2026, 9, 11⟩ rowOct5 = true ∧
    statsRowSelected ⟨2026, 9, 11⟩ rowOct5 = false := by
  refine ⟨by decide, by decide, by decide, by decide⟩

/-- C3 witness: the amended window characterisation applied at the
concrete current date Oct 11 2026 and the row date Sep 15 2026. -/
theorem c3_witness :
    NormalizedDate ⟨2026, 9, 11⟩ ∧
    prevMonthStart ⟨2026, 9, 11⟩ = topContentStartDate ⟨2026, 9, 11⟩ "month" ∧
    statsDateCond ⟨2026, 9, 11⟩ ⟨2026, 8, 15⟩ =
      (topDateCond ⟨2026, 9, 11⟩ ⟨2026, 8, 15⟩ &&
        dateLE ⟨2026, 8, 15⟩ (prevMonthEnd ⟨2026, 9, 11⟩)) :=
  ⟨by decide,
   (c3_windows ⟨2026, 9, 11⟩ (by decide) (by decide) (by decide)).1,
   (c3_windows ⟨2026, 9, 11⟩ (by decide) (by decide) (by decide)).2.1 ⟨2026, 8, 15⟩⟩

end Jellystat
